import Mathlib

/-!
Verification development for the BSE announcement-scraper repository.

The repository ingests newly published BSE disclosure announcements, resolves
each to a downloadable PDF, summarizes it, compares it with the most recent
prior disclosure of the same company ("scrip"), and queues notifications.

This file shallowly embeds the parts of the source that the verified claims
are about:

* `core/db_handler.py` — the live-run SQLite store (`announcements` table,
  primary key `news_id`);
* `core/historical_db_handler.py` — the historical store and the lookup
  `get_latest_announcement_for_scrip`;
* `core/scraper.py` — `BSEScraper._make_resilient_request`,
  `BSEScraper._get_historical_summary_for_comparison`,
  `BSEScraper.process_and_summarize`,
  `BSEScraper.run_all_notifications_sequentially`, and the main
  `BSEScraper.run` loop;
* `historical_backfill.py` — the shared `throttle_event` cool-down protocol.

Databases are modelled as lists of rows in ingestion order, dates as
ISO `YYYY-MM-DD` strings (SQLite compares TEXT columns bytewise, which on
such strings coincides with the `String` linear order), external
collaborators (network, PDF extraction, the summarizer) as oracle functions
supplied in small environment structures, and Python exceptions as `Except`
values.  Effects that the claims talk about (downloads, summarizer calls,
blocking sleeps) are reified into explicit event lists.
-/

/-- JSON summary payload as produced by `GeminiSummarizer`.  The source only
ever inspects the `type` field (values "summary", "web_link", "error"), the
`links` list (a list of url strings), and — after
`summary_data.update(comparison_context)` in `process_and_summarize` — the
two comparison-context keys, so only those are modelled. -/
structure Payload where
  ptype : String
  links : List String := []
  comparison_pdf_url : Option String := none
  comparison_media_url : Option String := none
deriving DecidableEq, Repr

/-- The `comparison_context` dictionary built by
`BSEScraper._get_historical_summary_for_comparison` (scraper.py line 294):
always carries `comparison_pdf_url`, and `comparison_media_url` only when
the JIT summary exposes a media link. -/
structure Ctx where
  comparison_pdf_url : String
  comparison_media_url : Option String := none
deriving DecidableEq, Repr

/-- `dict.update(comparison_context)` in `process_and_summarize`
(scraper.py line 408): keys present in the context overwrite the payload's. -/
def applyCtx (p : Payload) (c : Ctx) : Payload :=
  { p with
    comparison_pdf_url := some c.comparison_pdf_url
    comparison_media_url :=
      match c.comparison_media_url with
      | some u => some u
      | none => p.comparison_media_url }

/-- SQLite compares TEXT values bytewise; on the ISO date strings stored by
this repository that is the lexicographic character order.  These instances
re-route decidability of the `String` order through the character list so
that concrete comparisons evaluate by kernel reduction. -/
instance strDecLt (a b : String) : Decidable (a < b) :=
  decidable_of_iff (a.toList < b.toList) String.lt_iff_toList_lt.symm

instance strDecLe (a b : String) : Decidable (a ≤ b) :=
  decidable_of_iff (¬ b < a) not_lt

/-! ## Historical store (`historical_db_handler.py`, `init_historical_db.py`)

Schema from `init_historical_db.py`: columns `news_id` (TEXT PRIMARY KEY),
`scrip_code`, `company_name`, `announcement_date` (ISO TEXT), `pdf_url`
(UNIQUE), `summary_json` (nullable TEXT).  The `summary_json` cell is read
through Python truthiness plus `json.loads`, which gives three observable
states: absent (NULL or empty string, both falsy), present but unparseable
(`json.JSONDecodeError`), or parsed to a payload. -/

/-- Observable state of the stored `summary_json` column. -/
inductive Cell where
  | absent
  | malformed
  | parsed (p : Payload)
deriving DecidableEq, Repr

/-- One row of the historical `announcements` table. -/
structure HistRow where
  news_id : String
  scrip_code : String
  company_name : String
  announcement_date : String
  pdf_url : String
  summary_json : Cell
deriving DecidableEq, Repr

/-- A historical database is its rows in ingestion (rowid) order. -/
abbrev HistDB := List HistRow

namespace HistoricalDBHandler

/-- Rows matching the WHERE clause of the lookup query
(`scrip_code = ? AND announcement_date < ?`). -/
def isCandidate (scrip_code current_ann_date : String) (r : HistRow) : Bool :=
  r.scrip_code == scrip_code && decide (r.announcement_date < current_ann_date)

/-- Semantics guaranteed by the SQL text of
`HistoricalDBHandler.get_latest_announcement_for_scrip`
(historical_db_handler.py lines 45-54): `SELECT ... WHERE scrip_code = ?
AND announcement_date < ? ORDER BY announcement_date DESC LIMIT 1`.
The query may return any stored candidate row of maximal
`announcement_date`; with no secondary ORDER BY key, SQL does not
determine which row is produced when several candidates share that
maximal date. -/
def admissibleResult (db : HistDB) (scrip_code current_ann_date : String)
    (r : HistRow) : Prop :=
  r ∈ db ∧ r.scrip_code = scrip_code ∧ r.announcement_date < current_ann_date ∧
    ∀ r' ∈ db, r'.scrip_code = scrip_code → r'.announcement_date < current_ann_date →
      r'.announcement_date ≤ r.announcement_date

instance (db : HistDB) (s d : String) (r : HistRow) :
    Decidable (admissibleResult db s d r) := by
  unfold admissibleResult
  infer_instance

/-- Scan step keeping a row of maximal date (first-scanned row wins ties). -/
def latestPick (best : Option HistRow) (r : HistRow) : Option HistRow :=
  match best with
  | none => some r
  | some b => if b.announcement_date < r.announcement_date then some r else some b

/-- Executable refinement of `get_latest_announcement_for_scrip`
(historical_db_handler.py lines 29-59): one concrete evaluation of the SQL
query, scanning the stored rows in ingestion order and keeping the
first-scanned row among equal maximal dates.  `admissibleResult` captures
what the SQL text itself guarantees about any such evaluation. -/
def get_latest_announcement_for_scrip (db : HistDB)
    (scrip_code current_ann_date : String) : Option HistRow :=
  (db.filter (isCandidate scrip_code current_ann_date)).foldl latestPick none

lemma foldl_latestPick_mem :
    ∀ (l : List HistRow) (acc : Option HistRow) (r : HistRow),
      l.foldl latestPick acc = some r → acc = some r ∨ r ∈ l := by
  intro l
  induction l with
  | nil => intro acc r h; exact Or.inl h
  | cons x xs ih =>
    intro acc r h
    rcases ih (latestPick acc x) r h with h1 | h1
    · cases acc with
      | none =>
        simp only [latestPick, Option.some.injEq] at h1
        exact Or.inr (by simp [h1])
      | some b =>
        simp only [latestPick] at h1
        by_cases hlt : b.announcement_date < x.announcement_date
        · rw [if_pos hlt] at h1
          exact Or.inr (by simp [(Option.some.injEq _ _).mp h1])
        · rw [if_neg hlt] at h1
          exact Or.inl h1
    · exact Or.inr (List.mem_cons_of_mem _ h1)

lemma foldl_latestPick_max :
    ∀ (l : List HistRow) (acc : Option HistRow) (r : HistRow),
      l.foldl latestPick acc = some r →
      (∀ x ∈ l, x.announcement_date ≤ r.announcement_date) ∧
      (∀ b, acc = some b → b.announcement_date ≤ r.announcement_date) := by
  intro l
  induction l with
  | nil =>
    intro acc r h
    refine ⟨by simp, ?_⟩
    intro b hb
    rw [hb] at h
    cases h
    exact le_refl _
  | cons x xs ih =>
    intro acc r h
    obtain ⟨hxs, hacc⟩ := ih (latestPick acc x) r h
    have hx : x.announcement_date ≤ r.announcement_date := by
      cases acc with
      | none => exact hacc x rfl
      | some b =>
        simp only [latestPick] at hacc
        by_cases hlt : b.announcement_date < x.announcement_date
        · exact hacc x (by rw [if_pos hlt])
        · exact le_trans (not_lt.mp hlt) (hacc b (by rw [if_neg hlt]))
    refine ⟨?_, ?_⟩
    · intro y hy
      rcases List.mem_cons.mp hy with rfl | hy
      · exact hx
      · exact hxs y hy
    · intro b hb
      subst hb
      simp only [latestPick] at hacc
      by_cases hlt : b.announcement_date < x.announcement_date
      · exact le_trans (le_of_lt hlt) (hacc x (by rw [if_pos hlt]))
      · exact hacc b (by rw [if_neg hlt])

lemma foldl_latestPick_some_acc :
    ∀ (l : List HistRow) (b : HistRow), ∃ c, l.foldl latestPick (some b) = some c := by
  intro l
  induction l with
  | nil => intro b; exact ⟨b, rfl⟩
  | cons x xs ih =>
    intro b
    show ∃ c, xs.foldl latestPick (latestPick (some b) x) = some c
    simp only [latestPick]
    by_cases hlt : b.announcement_date < x.announcement_date
    · rw [if_pos hlt]; exact ih x
    · rw [if_neg hlt]; exact ih b

lemma foldl_latestPick_none_iff (l : List HistRow) :
    l.foldl latestPick none = none ↔ l = [] := by
  cases l with
  | nil => simp
  | cons x xs =>
    constructor
    · intro h
      obtain ⟨c, hc⟩ := foldl_latestPick_some_acc xs x
      rw [show (x :: xs).foldl latestPick none = xs.foldl latestPick (some x) from rfl, hc] at h
      cases h
    · intro h; cases h

end HistoricalDBHandler

namespace HistoricalDBHandler

/-- The lookup's answers, against the SQL semantics: any returned row is a
stored candidate of maximal date, and `None` is returned exactly when no
stored row for the scrip predates the given date. -/
lemma get_latest_correct (db : HistDB) (scrip_code current_ann_date : String) :
    (∀ r, get_latest_announcement_for_scrip db scrip_code current_ann_date = some r →
       admissibleResult db scrip_code current_ann_date r) ∧
    (get_latest_announcement_for_scrip db scrip_code current_ann_date = none ↔
       ∀ r ∈ db, ¬(r.scrip_code = scrip_code ∧ r.announcement_date < current_ann_date)) := by
  constructor
  · intro r h
    unfold get_latest_announcement_for_scrip at h
    have hmem := foldl_latestPick_mem _ _ _ h
    have hmax := (foldl_latestPick_max _ _ _ h).1
    rcases hmem with hmem | hmem
    · cases hmem
    · have hfil := List.mem_filter.mp hmem
      have hcand : r.scrip_code = scrip_code ∧
          r.announcement_date < current_ann_date := by
        have := hfil.2
        simpa [isCandidate] using this
      refine ⟨hfil.1, hcand.1, hcand.2, ?_⟩
      intro r' hr' hsc hdt
      exact hmax r' (List.mem_filter.mpr ⟨hr', by simp [isCandidate, hsc, hdt]⟩)
  · unfold get_latest_announcement_for_scrip
    rw [foldl_latestPick_none_iff, List.filter_eq_nil_iff]
    constructor
    · intro h r hr hc
      exact h r hr (by simp [isCandidate, hc.1, hc.2])
    · intro h r hr hc
      exact h r hr (by simpa [isCandidate] using hc)

end HistoricalDBHandler

/-! ### Concrete historical databases used for claim C3 -/

/-- Two prior disclosures of the same scrip sharing one announcement date
(equal maximal dates below the lookup cut-off), ingested A before B. -/
def tieRowA : HistRow :=
  ⟨"HA", "500100", "Acme Industries", "2024-03-05", "https://x/a.pdf", Cell.absent⟩

def tieRowB : HistRow :=
  ⟨"HB", "500100", "Acme Industries", "2024-03-05", "https://x/b.pdf", Cell.absent⟩

def tieDb : HistDB := [tieRowA, tieRowB]

/-- The spec's own ordering example: prior disclosures dated 2024-01-10 and
2024-03-05 for one scrip. -/
def janRow : HistRow :=
  ⟨"HJ", "500325", "Reliance Industries", "2024-01-10", "https://x/jan.pdf", Cell.absent⟩

def marRow : HistRow :=
  ⟨"HM", "500325", "Reliance Industries", "2024-03-05", "https://x/mar.pdf", Cell.absent⟩

def orderedDb : HistDB := [janRow, marRow]

/-- Claim C3, counterexample: the lookup query's SQL fixes no tie-break, so
on a store holding two rows of the same scrip with the same (maximal
qualifying) announcement date, both rows are admissible results of
`get_latest_announcement_for_scrip` — the returned row is not determined
by a deterministic ingestion-order rule. -/
theorem get_latest_tie_not_determined :
    HistoricalDBHandler.admissibleResult tieDb "500100" "2024-04-01" tieRowA ∧
    HistoricalDBHandler.admissibleResult tieDb "500100" "2024-04-01" tieRowB ∧
    tieRowA ≠ tieRowB := by
  refine ⟨?_, ?_, ?_⟩ <;> decide

/-- Claim C3 (amended): `get_latest_announcement_for_scrip(S, D)` returns a
stored announcement for scrip `S` of maximal `announcement_date` strictly
below `D`, and `None` exactly when no stored row for `S` predates `D`;
when several rows share that maximal date, which of them is returned is
left unspecified by the query (storage-dependent), with no ingestion-order
tie-break enforced. -/
theorem get_latest_announcement_for_scrip_spec
    (db : HistDB) (scrip_code current_ann_date : String) :
    (∀ r, HistoricalDBHandler.get_latest_announcement_for_scrip db scrip_code
            current_ann_date = some r →
       HistoricalDBHandler.admissibleResult db scrip_code current_ann_date r) ∧
    (HistoricalDBHandler.get_latest_announcement_for_scrip db scrip_code
        current_ann_date = none ↔
       ∀ r ∈ db, ¬(r.scrip_code = scrip_code ∧
         r.announcement_date < current_ann_date)) :=
  HistoricalDBHandler.get_latest_correct db scrip_code current_ann_date

/-- Witness for claim C3 on the spec's ordering example: looking up scrip
500325 before 2024-04-01 over rows dated 2024-01-10 and 2024-03-05 yields
the 2024-03-05 record, and it is an admissible maximal-date result. -/
theorem get_latest_announcement_for_scrip_spec_witness :
    HistoricalDBHandler.admissibleResult orderedDb "500325" "2024-04-01" marRow :=
  (get_latest_announcement_for_scrip_spec orderedDb "500325" "2024-04-01").1
    marRow (by decide)

/-! ## Historical update and the JIT comparison engine
(`historical_db_handler.py` lines 61-75, `scraper.py` lines 42-49 and
269-372) -/

namespace HistoricalDBHandler

/-- `HistoricalDBHandler.update_summary` (historical_db_handler.py lines
61-75): `UPDATE announcements SET summary_json = ? WHERE news_id = ?`. -/
def update_summary (db : HistDB) (news_id : String) (p : Payload) : HistDB :=
  db.map (fun r => if r.news_id == news_id then { r with summary_json := Cell.parsed p } else r)

/-- `HistoricalDBHandler.__init__` (historical_db_handler.py lines 20-27):
raises `FileNotFoundError` when the database file does not exist, otherwise
connects. -/
def init (dbExists : Bool) (rows : HistDB) : Except Unit HistDB :=
  if dbExists then Except.ok rows else Except.error ()

end HistoricalDBHandler

/-- `BSEScraper.__init__` (scraper.py lines 43-49): the `FileNotFoundError`
from the historical handler's constructor is caught and the handle set to
`None`, disabling comparison features for the run. -/
def scraperHistoricalDb (dbExists : Bool) (rows : HistDB) : Option HistDB :=
  match HistoricalDBHandler.init dbExists rows with
  | Except.ok h => some h
  | Except.error _ => none

/-- Effects of one call to the JIT comparison engine. -/
inductive HistEffect where
  | downloadPdf (url : String)
  | processPdf (path : String)
  | summarizeCall (news_id : String)
  | updateSummary (news_id : String)
  | unlinkTemp (path : String)
deriving DecidableEq, Repr

/-- External collaborators of the JIT path, as oracles.  Each may raise
(`Except.error`), mirroring that `download_pdf`, `PDFProcessor.process_pdf`
and `GeminiSummarizer.summarize` can all throw inside the `try` block of
`_get_historical_summary_for_comparison`; `download_pdf` additionally
returns `None` on handled failures, and `summarize` returns `None` when
the summarizer gives up. -/
structure JitEnv where
  downloadPdf : HistRow → Except String (Option String)
  pathExists : String → Bool
  processPdf : String → Except String String
  summarize : String → String → String → Except String (Option Payload)

/-- The `try ... except Exception ... finally` body of
`BSEScraper._get_historical_summary_for_comparison` (scraper.py lines
315-372): download the prior announcement's PDF, extract its content,
summarize it in historical mode, persist the result, and release the
temporary file on every exit path.  Any raised exception is caught and
turned into `none`. -/
def jitStep (env : JitEnv) (db : HistDB) (prev : HistRow) (ctx : Ctx) :
    Option (Payload × Ctx) × Option HistDB × List HistEffect :=
  match env.downloadPdf prev with
  | Except.error _ => (none, some db, [HistEffect.downloadPdf prev.pdf_url])
  | Except.ok none => (none, some db, [HistEffect.downloadPdf prev.pdf_url])
  | Except.ok (some path) =>
    if env.pathExists path then
      let effs0 := [HistEffect.downloadPdf prev.pdf_url, HistEffect.processPdf path]
      match env.processPdf path with
      | Except.error _ => (none, some db, effs0 ++ [HistEffect.unlinkTemp path])
      | Except.ok content =>
        let effs1 := effs0 ++ [HistEffect.summarizeCall prev.news_id]
        match env.summarize content prev.company_name prev.pdf_url with
        | Except.error _ => (none, some db, effs1 ++ [HistEffect.unlinkTemp path])
        | Except.ok summaryJson =>
          match summaryJson with
          | none => (none, some db, effs1 ++ [HistEffect.unlinkTemp path])
          | some p =>
            let db' := HistoricalDBHandler.update_summary db prev.news_id p
            let effs2 := effs1 ++ [HistEffect.updateSummary prev.news_id,
              HistEffect.unlinkTemp path]
            if p.ptype == "web_link" then (none, some db', effs2)
            else if p.ptype == "summary" then
              let ctx' :=
                match p.links with
                | u :: _ => { ctx with comparison_media_url := some u }
                | [] => ctx
              (some (p, ctx'), some db', effs2)
            else (none, some db', effs2)
    else (none, some db, [HistEffect.downloadPdf prev.pdf_url])

/-- `BSEScraper._get_historical_summary_for_comparison` (scraper.py lines
269-372).  Returns the comparison summary and context (or `none`), the
historical store after the call (`none` when the handler is disabled), and
the effects performed.  The comparison handle is `none` when the
historical database was missing at construction time (line 278 guard). -/
def getHistoricalSummaryForComparison (env : JitEnv) (historical_db : Option HistDB)
    (scrip_code current_ann_date : String) :
    Option (Payload × Ctx) × Option HistDB × List HistEffect :=
  match historical_db with
  | none => (none, none, [])
  | some db =>
    match HistoricalDBHandler.get_latest_announcement_for_scrip db scrip_code
        current_ann_date with
    | none => (none, some db, [])
    | some prev =>
      let comparison_context : Ctx := { comparison_pdf_url := prev.pdf_url }
      match prev.summary_json with
      | Cell.parsed p =>
        if p.ptype == "summary" then (some (p, comparison_context), some db, [])
        else (none, some db, [])
      | Cell.absent => jitStep env db prev comparison_context
      | Cell.malformed => jitStep env db prev comparison_context

/-- Claim C4: when the most recent prior announcement found for the scrip
already carries a cached parsed summary of kind "summary", the engine
returns that summary with the comparison context at once — the historical
store is untouched and no download, extraction or summarizer effect is
performed. -/
theorem cached_summary_hit (env : JitEnv) (db : HistDB)
    (scrip_code current_ann_date : String) (prev : HistRow) (p : Payload)
    (hfind : HistoricalDBHandler.get_latest_announcement_for_scrip db scrip_code
      current_ann_date = some prev)
    (hcell : prev.summary_json = Cell.parsed p)
    (htype : p.ptype = "summary") :
    getHistoricalSummaryForComparison env (some db) scrip_code current_ann_date
      = (some (p, { comparison_pdf_url := prev.pdf_url }), some db, []) := by
  simp [getHistoricalSummaryForComparison, hfind, hcell, htype]

/-- A historical row whose summary is already cached as a parsed summary. -/
def cachedPayload : Payload := { ptype := "summary", links := ["https://media/x.mp3"] }

def cachedRow : HistRow :=
  ⟨"HC", "500100", "Acme Industries", "2024-03-05", "https://x/c.pdf",
    Cell.parsed cachedPayload⟩

def cachedDb : HistDB := [cachedRow]

/-- A JIT environment whose collaborators are never reached on a cache hit. -/
def trivialJitEnv : JitEnv where
  downloadPdf _ := Except.ok none
  pathExists _ := false
  processPdf _ := Except.ok ""
  summarize _ _ _ := Except.ok none

/-- Witness for claim C4 at a concrete store and environment. -/
theorem cached_summary_hit_witness :
    getHistoricalSummaryForComparison trivialJitEnv (some cachedDb) "500100"
        "2024-04-01"
      = (some (cachedPayload, { comparison_pdf_url := "https://x/c.pdf" }),
         some cachedDb, []) :=
  cached_summary_hit trivialJitEnv cachedDb "500100" "2024-04-01" cachedRow
    cachedPayload (by decide) (by decide) (by decide)

/-- Claim C7: if the prior announcement needs JIT work (no usable cached
summary) and any of the three JIT collaborators — download, content
extraction, summarization — raises, the exception is caught inside
`_get_historical_summary_for_comparison` and the call returns `none`
("no context available") instead of propagating. -/
theorem jit_exception_yields_none (env : JitEnv) (db : HistDB)
    (scrip_code current_ann_date : String) (prev : HistRow)
    (hfind : HistoricalDBHandler.get_latest_announcement_for_scrip db scrip_code
      current_ann_date = some prev)
    (hcell : prev.summary_json = Cell.absent ∨ prev.summary_json = Cell.malformed)
    (hthrow :
      (∃ exn, env.downloadPdf prev = Except.error exn) ∨
      (∃ path exn, env.downloadPdf prev = Except.ok (some path) ∧
        env.pathExists path = true ∧ env.processPdf path = Except.error exn) ∨
      (∃ path content exn, env.downloadPdf prev = Except.ok (some path) ∧
        env.pathExists path = true ∧ env.processPdf path = Except.ok content ∧
        env.summarize content prev.company_name prev.pdf_url = Except.error exn)) :
    (getHistoricalSummaryForComparison env (some db) scrip_code
      current_ann_date).1 = none := by
  have hjit : getHistoricalSummaryForComparison env (some db) scrip_code
      current_ann_date = jitStep env db prev { comparison_pdf_url := prev.pdf_url } := by
    rcases hcell with hcell | hcell <;>
      simp [getHistoricalSummaryForComparison, hfind, hcell]
  rw [hjit]
  rcases hthrow with ⟨exn, h1⟩ | ⟨path, exn, h1, h2, h3⟩ |
    ⟨path, content, exn, h1, h2, h3, h4⟩
  · simp [jitStep, h1]
  · simp [jitStep, h1, h2, h3]
  · simp [jitStep, h1, h2, h3, h4]

/-- A JIT environment whose summarizer raises. -/
def throwingJitEnv : JitEnv where
  downloadPdf _ := Except.ok (some "downloads/tmp.pdf")
  pathExists _ := true
  processPdf _ := Except.ok "transcript text"
  summarize _ _ _ := Except.error "Gemini API failure"

/-- An uncached historical row, forcing the JIT path. -/
def uncachedRow : HistRow :=
  ⟨"HU", "500200", "Beta Corp", "2024-02-20", "https://x/u.pdf", Cell.absent⟩

def uncachedDb : HistDB := [uncachedRow]

/-- Witness for claim C7: a summarizer exception during JIT is absorbed into
a `none` result at a concrete store and environment. -/
theorem jit_exception_yields_none_witness :
    (getHistoricalSummaryForComparison throwingJitEnv (some uncachedDb) "500200"
      "2024-04-01").1 = none :=
  jit_exception_yields_none throwingJitEnv uncachedDb "500200" "2024-04-01"
    uncachedRow (by decide) (Or.inl (by decide))
    (Or.inr (Or.inr ⟨"downloads/tmp.pdf", "transcript text", "Gemini API failure",
      rfl, rfl, rfl, rfl⟩))

/-- Claim C10: when the historical database file is missing at scraper
construction, the `FileNotFoundError` is caught, the comparison handle is
`None`, and every later comparison call returns `none` immediately with no
effects — historical comparison is silently disabled, not fatal. -/
theorem missing_historical_db_disables_comparison (rows : HistDB) :
    scraperHistoricalDb false rows = none ∧
    ∀ (env : JitEnv) (scrip_code current_ann_date : String),
      getHistoricalSummaryForComparison env (scraperHistoricalDb false rows)
        scrip_code current_ann_date = (none, none, []) :=
  ⟨rfl, fun _ _ _ => rfl⟩

/-! ## Live-run store (`core/db_handler.py`)

Table `announcements(news_id TEXT PRIMARY KEY, scrip_code, company_name,
download_timestamp, status, summary_json)`, statuses "DOWNLOADED",
"PROCESSED", "ERROR_PROCESSING". -/

/-- One live-run row (the `news_id` key is kept alongside). -/
structure LiveRec where
  scrip_code : String
  company_name : String
  status : String
  summary_json : Option Payload
deriving DecidableEq, Repr

/-- The live store: rows keyed by `news_id`, in ingestion order. -/
abbrev LiveDB := List (String × LiveRec)

namespace DBHandler

/-- `DBHandler.is_processed` (db_handler.py lines 49-52): a row with this
`news_id` exists. -/
def is_processed (db : LiveDB) (news_id : String) : Bool :=
  db.any (fun q => q.1 == news_id)

/-- `DBHandler.needs_summarization` (db_handler.py lines 54-60): a row with
this `news_id` and status "DOWNLOADED" exists. -/
def needs_summarization (db : LiveDB) (news_id : String) : Bool :=
  db.any (fun q => q.1 == news_id && q.2.status == "DOWNLOADED")

/-- The storage layer's INSERT under the `news_id TEXT PRIMARY KEY`
constraint: appends the row, or raises `IntegrityError` when the key is
already present.  Uniqueness lives here, not in application logic. -/
def sqliteInsert (db : LiveDB) (news_id : String) (r : LiveRec) :
    Except String LiveDB :=
  if db.any (fun q => q.1 == news_id) then Except.error "IntegrityError"
  else Except.ok (db ++ [(news_id, r)])

/-- `DBHandler.add_new_announcement` (db_handler.py lines 62-71): INSERT a
"DOWNLOADED" row; `except sqlite3.IntegrityError: pass` turns a duplicate
key into a silent no-op. -/
def add_new_announcement (db : LiveDB) (news_id scrip_code company_name : String) :
    LiveDB :=
  match sqliteInsert db news_id ⟨scrip_code, company_name, "DOWNLOADED", none⟩ with
  | Except.ok db' => db'
  | Except.error _ => db

/-- `DBHandler.update_summary` (db_handler.py lines 73-82): UPDATE the
summary and status of the row with this `news_id`. -/
def update_summary (db : LiveDB) (news_id : String) (p : Payload)
    (status : String) : LiveDB :=
  db.map (fun q =>
    if q.1 == news_id then (q.1, { q.2 with summary_json := some p, status := status })
    else q)

/-- Number of stored rows carrying a given `news_id`. -/
def rowCount (db : LiveDB) (news_id : String) : Nat :=
  db.countP (fun q => q.1 == news_id)

lemma is_processed_iff_rowCount_pos (db : LiveDB) (news_id : String) :
    is_processed db news_id = true ↔ 0 < rowCount db news_id := by
  unfold is_processed rowCount
  rw [List.any_eq_true, List.countP_pos_iff]

lemma add_new_noop (db : LiveDB) (news_id scrip_code company_name : String)
    (h : is_processed db news_id = true) :
    add_new_announcement db news_id scrip_code company_name = db := by
  unfold add_new_announcement sqliteInsert
  rw [show db.any (fun q => q.1 == news_id) = true from h]
  simp

lemma add_new_fresh (db : LiveDB) (news_id scrip_code company_name : String)
    (h : is_processed db news_id = false) :
    add_new_announcement db news_id scrip_code company_name
      = db ++ [(news_id, ⟨scrip_code, company_name, "DOWNLOADED", none⟩)] := by
  unfold add_new_announcement sqliteInsert
  rw [show db.any (fun q => q.1 == news_id) = false from h]
  simp

end DBHandler

/-- Claim C2: the live store holds at most one row per `news_id`.  Inserting
an id that already exists is a silent no-op (no error raised — the call is
total and returns the store unchanged), uniqueness coming from the storage
layer's primary-key constraint; and N serialized inserts of the same fresh
id leave exactly one stored row, the N−1 later calls all no-ops. -/
theorem add_new_announcement_dedup (db : LiveDB)
    (news_id scrip_code company_name : String) (N : Nat)
    (h0 : DBHandler.is_processed db news_id = false) (hN : 1 ≤ N) :
    (∀ db' : LiveDB, DBHandler.is_processed db' news_id = true →
       DBHandler.add_new_announcement db' news_id scrip_code company_name = db') ∧
    DBHandler.rowCount
      ((fun d => DBHandler.add_new_announcement d news_id scrip_code company_name)^[N] db)
      news_id = 1 := by
  refine ⟨fun db' h => DBHandler.add_new_noop db' _ _ _ h, ?_⟩
  obtain ⟨m, rfl⟩ : ∃ m, N = m + 1 := ⟨N - 1, (Nat.succ_pred_eq_of_pos hN).symm⟩
  rw [Function.iterate_succ_apply]
  set f := fun d => DBHandler.add_new_announcement d news_id scrip_code company_name
    with hf
  have hcount0 : DBHandler.rowCount db news_id = 0 := by
    by_contra hne
    have hpos : 0 < DBHandler.rowCount db news_id := Nat.pos_of_ne_zero hne
    rw [← DBHandler.is_processed_iff_rowCount_pos] at hpos
    rw [hpos] at h0
    cases h0
  have hone : DBHandler.rowCount (f db) news_id = 1 := by
    rw [hf]
    simp only
    rw [DBHandler.add_new_fresh db _ _ _ h0]
    unfold DBHandler.rowCount at hcount0 ⊢
    rw [List.countP_append, hcount0]
    simp
  have hfix : f (f db) = f db := by
    rw [hf]
    simp only
    apply DBHandler.add_new_noop
    rw [DBHandler.is_processed_iff_rowCount_pos]
    rw [show DBHandler.rowCount (f db) news_id = 1 from hone]
    exact Nat.one_pos
  rw [Function.iterate_fixed hfix m]
  exact hone

/-- A fresh store and id for the claim C2 witness. -/
def freshDb : LiveDB := [("OLD1", ⟨"500999", "Old Co", "PROCESSED", none⟩)]

/-- Witness for claim C2: three racing inserts of the fresh id "NEW1" into
`freshDb` leave exactly one "NEW1" row, later inserts being no-ops. -/
theorem add_new_announcement_dedup_witness :
    (∀ db' : LiveDB, DBHandler.is_processed db' "NEW1" = true →
       DBHandler.add_new_announcement db' "NEW1" "500100" "Acme" = db') ∧
    DBHandler.rowCount
      ((fun d => DBHandler.add_new_announcement d "NEW1" "500100" "Acme")^[3] freshDb)
      "NEW1" = 1 :=
  add_new_announcement_dedup freshDb "NEW1" "500100" "Acme" 3 (by decide) (by decide)

/-! ## The scraper's main loop (`core/scraper.py` lines 374-555) -/

/-- Notification intents returned by `process_and_summarize` as delayed
callables (scraper.py lines 416-431). -/
inductive NotifTask where
  | notifySummary (p : Payload)
  | notifyWeblinkWithContext (p prev : Payload)
  | notifyWeblink (p : Payload)
  | notifyError (p : Payload)
deriving DecidableEq, Repr

/-- Externally visible work performed while processing one candidate. -/
inductive Effect where
  | fetchXbrl (news_id : String)
  | download (url : String)
  | jit (e : HistEffect)
  | processPdf (path : String)
  | summarize (news_id : String)
deriving DecidableEq, Repr

/-- One row of the candidate list returned by the BSE list API (the fields
of the announcement dict that `BSEScraper.run` reads: NEWSID, SCRIP_CD,
SLONGNAME, DissemDT, PDF_URL_OVERRIDE, is_test). -/
structure Item where
  newsId : Option String
  scripCode : String
  name : String
  dissemDT : Option String
  pdfUrlOverride : Option String
  isTest : Bool := false
deriving DecidableEq, Repr

/-- Configuration and external collaborators of `BSEScraper.run` and
`process_and_summarize`, as deterministic oracles (the "no external state
change" reading: the same oracle answers on both runs). -/
structure RunEnv where
  test_mode : Bool
  max_items : Nat
  parseDissem : Option String → Option String
  today : String
  getPdfUrlFromXbrl : String → String → Option String
  downloadPdf : String → String → String → String → Option String
  pathExists : String → Bool
  downloadPathOf : String → String → String → String
  processPdf : String → String
  summarize : String → String → String → Option Payload → Option Payload

/-- Live and historical store, threaded through a run. -/
structure ScrState where
  liveDb : LiveDB
  histDb : Option HistDB
deriving DecidableEq, Repr

namespace BSEScraper

/-- `BSEScraper.process_and_summarize` (scraper.py lines 374-431): skip in
test mode or when the item no longer needs summarization; otherwise
extract, summarize, merge the comparison context, write the result with
status "PROCESSED"/"ERROR_PROCESSING", and return the notification
intent. -/
def process_and_summarize (env : RunEnv) (db : LiveDB)
    (pdf_path news_id company_name pdf_url : String)
    (previous_summary : Option Payload) (comparison_context : Option Ctx) :
    LiveDB × Option NotifTask × List Effect :=
  if env.test_mode then (db, none, [])
  else if !DBHandler.needs_summarization db news_id then (db, none, [])
  else
    let content := env.processPdf pdf_path
    let summary0 := env.summarize content company_name pdf_url previous_summary
    let s1 : Payload := summary0.getD { ptype := "error" }
    let summary_data :=
      match comparison_context with
      | some c => applyCtx s1 c
      | none => s1
    let status := if summary_data.ptype != "error" then "PROCESSED"
      else "ERROR_PROCESSING"
    let db' := DBHandler.update_summary db news_id summary_data status
    let task : Option NotifTask :=
      if status == "PROCESSED" then
        if summary_data.ptype == "summary" then some (NotifTask.notifySummary summary_data)
        else if summary_data.ptype == "web_link" then
          match previous_summary with
          | some prev => some (NotifTask.notifyWeblinkWithContext summary_data prev)
          | none => some (NotifTask.notifyWeblink summary_data)
        else none
      else if summary_data.ptype == "error" then some (NotifTask.notifyError summary_data)
      else none
    (db', task, [Effect.processPdf pdf_path, Effect.summarize news_id])

/-- The body of the `for item in reversed(announcements)` loop of
`BSEScraper.run` (scraper.py lines 469-539), minus the `max_items` break
which the loop driver below handles.  Returns the updated stores, the
produced notification intent, whether the item counted as new
(`new_items_processed += 1`), and the effects performed. -/
def processItem (env : RunEnv) (jenv : JitEnv) (st : ScrState) (item : Item) :
    ScrState × Option NotifTask × Bool × List Effect :=
  match item.newsId with
  | none => (st, none, false, [])
  | some news_id =>
    let scrip_code := item.scripCode
    let announcement_date := (env.parseDissem item.dissemDT).getD env.today
    if DBHandler.is_processed st.liveDb news_id &&
        !DBHandler.needs_summarization st.liveDb news_id then
      (st, none, false, [])
    else
      let step1 : LiveDB × Option String × Option String × Bool × List Effect :=
        if !DBHandler.is_processed st.liveDb news_id then
          let res : Option String × List Effect :=
            match item.pdfUrlOverride with
            | some u => (some u, [])
            | none => (env.getPdfUrlFromXbrl news_id scrip_code,
                [Effect.fetchXbrl news_id])
          match res.1 with
          | some u =>
            let pdf_path := env.downloadPdf u scrip_code item.name news_id
            let effs := res.2 ++ [Effect.download u]
            match pdf_path with
            | some p =>
              (DBHandler.add_new_announcement st.liveDb news_id scrip_code item.name,
                some u, some p, true, effs)
            | none =>
              if env.test_mode || item.isTest then
                (DBHandler.add_new_announcement st.liveDb news_id scrip_code item.name,
                  some u, none, true, effs)
              else (st.liveDb, some u, none, true, effs)
          | none => (st.liveDb, none, none, true, res.2)
        else (st.liveDb, item.pdfUrlOverride, none, false, [])
      let db1 := step1.1
      let url1 := step1.2.1
      let path1 := step1.2.2.1
      let isNew := step1.2.2.2.1
      let effs1 := step1.2.2.2.2
      if path1.isSome ||
          (DBHandler.is_processed db1 news_id &&
            DBHandler.needs_summarization db1 news_id) then
        let pdf_path :=
          match path1 with
          | some p => p
          | none => env.downloadPathOf scrip_code item.name news_id
        if env.pathExists pdf_path then
          let urlRes : String × List Effect :=
            match url1 with
            | some u => (u, effs1)
            | none => ((env.getPdfUrlFromXbrl news_id scrip_code).getD "",
                effs1 ++ [Effect.fetchXbrl news_id])
          let hist := getHistoricalSummaryForComparison jenv st.histDb scrip_code
            announcement_date
          let previous_summary := hist.1.map Prod.fst
          let comparison_context := hist.1.map Prod.snd
          let ps := process_and_summarize env db1 pdf_path news_id item.name
            urlRes.1 previous_summary comparison_context
          (⟨ps.1, hist.2.1⟩, ps.2.1, isNew,
            urlRes.2 ++ hist.2.2.map Effect.jit ++ ps.2.2)
        else (⟨db1, st.histDb⟩, none, isNew, effs1)
      else (⟨db1, st.histDb⟩, none, isNew, effs1)

/-- The loop driver of `BSEScraper.run` (scraper.py lines 463-468 and
534-535): threads the stores and the `new_items_processed` counter through
the items, halting when the `max_items` cap is reached, and accumulates
notification intents and effects. -/
def runLoop (env : RunEnv) (jenv : JitEnv) :
    ScrState → Nat → List Item → ScrState × List NotifTask × List Effect
  | st, _, [] => (st, [], [])
  | st, n, item :: rest =>
    if env.max_items > 0 && decide (env.max_items ≤ n) then (st, [], [])
    else
      let r := processItem env jenv st item
      let r' := runLoop env jenv r.1 (n + (if r.2.2.1 then 1 else 0)) rest
      (r'.1, r.2.1.toList ++ r'.2.1, r.2.2.2 ++ r'.2.2)

/-- `BSEScraper.run` (scraper.py lines 450-555): iterate over the candidate
list in reverse, returning the final stores, the notification intents in
production order, and the effects performed. -/
def run (env : RunEnv) (jenv : JitEnv) (st : ScrState) (announcements : List Item) :
    ScrState × List NotifTask × List Effect :=
  runLoop env jenv st 0 announcements.reverse

end BSEScraper

/-- All stored rows of a `news_id` are in the terminal summarized state. -/
def statusProcessed (db : LiveDB) (news_id : String) : Prop :=
  DBHandler.is_processed db news_id = true ∧
    ∀ q ∈ db, q.1 = news_id → q.2.status = "PROCESSED"

instance (db : LiveDB) (news_id : String) : Decidable (statusProcessed db news_id) := by
  unfold statusProcessed
  infer_instance

lemma needs_summarization_false_of_processed (db : LiveDB) (news_id : String)
    (h : ∀ q ∈ db, q.1 = news_id → q.2.status = "PROCESSED") :
    DBHandler.needs_summarization db news_id = false := by
  unfold DBHandler.needs_summarization
  rw [List.any_eq_false]
  intro q hq
  simp only [Bool.and_eq_true, beq_iff_eq, not_and]
  intro hid hst
  have := h q hq hid
  rw [this] at hst
  exact absurd hst (by decide)

lemma processItem_skip (env : RunEnv) (jenv : JitEnv) (st : ScrState)
    (item : Item) (news_id : String)
    (hid : item.newsId = some news_id)
    (hp : DBHandler.is_processed st.liveDb news_id = true)
    (hn : DBHandler.needs_summarization st.liveDb news_id = false) :
    BSEScraper.processItem env jenv st item = (st, none, false, []) := by
  unfold BSEScraper.processItem
  rw [hid]
  simp only [hp, hn, Bool.not_false, Bool.and_self, if_pos]

lemma runLoop_skip (env : RunEnv) (jenv : JitEnv) (st : ScrState) :
    ∀ (items : List Item) (n : Nat),
      (∀ item ∈ items, BSEScraper.processItem env jenv st item = (st, none, false, [])) →
      BSEScraper.runLoop env jenv st n items = (st, [], []) := by
  intro items
  induction items with
  | nil => intro n _; rfl
  | cons item rest ih =>
    intro n h
    unfold BSEScraper.runLoop
    by_cases hbrk : (env.max_items > 0 && decide (env.max_items ≤ n)) = true
    · rw [if_pos hbrk]
    · rw [if_neg hbrk]
      have hitem := h item (List.mem_cons_self item rest)
      rw [hitem]
      have hrest := ih (n + (if false then 1 else 0))
        (fun it hit => h it (List.mem_cons_of_mem _ hit))
      simp only [if_neg Bool.false_ne_true, Nat.add_zero] at hrest ⊢
      rw [hrest]
      rfl

/-- Claim C1: an announcement whose stored status is already the terminal
"PROCESSED" state is skipped outright by a later run — no XBRL fetch, no
download, no summarization, no store write, no notification intent for it —
and a whole run over candidates that are all already "PROCESSED" leaves both
stores unchanged and produces zero notification tasks and zero effects. -/
theorem run_skips_processed_items (env : RunEnv) (jenv : JitEnv) (st : ScrState)
    (announcements : List Item)
    (h : ∀ item ∈ announcements, ∃ news_id, item.newsId = some news_id ∧
      statusProcessed st.liveDb news_id) :
    (∀ item ∈ announcements,
       BSEScraper.processItem env jenv st item = (st, none, false, [])) ∧
    BSEScraper.run env jenv st announcements = (st, [], []) := by
  have hskip : ∀ item ∈ announcements,
      BSEScraper.processItem env jenv st item = (st, none, false, []) := by
    intro item hmem
    obtain ⟨news_id, hid, hps⟩ := h item hmem
    exact processItem_skip env jenv st item news_id hid hps.1
      (needs_summarization_false_of_processed _ _ hps.2)
  refine ⟨hskip, ?_⟩
  unfold BSEScraper.run
  exact runLoop_skip env jenv st announcements.reverse 0
    (fun item hit => hskip item (List.mem_reverse.mp hit))

/-- A concrete run configuration for the claim C1 witness. -/
def demoRunEnv : RunEnv where
  test_mode := false
  max_items := 0
  parseDissem _ := none
  today := "2024-06-01"
  getPdfUrlFromXbrl _ _ := none
  downloadPdf _ _ _ _ := none
  pathExists _ := false
  downloadPathOf _ _ _ := ""
  processPdf _ := ""
  summarize _ _ _ _ := none

/-- A state whose only listed candidate is already summarized. -/
def demoState : ScrState where
  liveDb := [("N1", ⟨"500100", "Acme Industries", "PROCESSED", none⟩)]
  histDb := none

def demoItem : Item where
  newsId := some "N1"
  scripCode := "500100"
  name := "Acme Industries"
  dissemDT := some "2024-06-01T10:00:00"
  pdfUrlOverride := none

/-- Witness for claim C1: re-running over the already-"PROCESSED" candidate
changes nothing and produces no tasks and no effects. -/
theorem run_skips_processed_items_witness :
    (∀ item ∈ [demoItem],
       BSEScraper.processItem demoRunEnv trivialJitEnv demoState item
         = (demoState, none, false, [])) ∧
    BSEScraper.run demoRunEnv trivialJitEnv demoState [demoItem]
      = (demoState, [], []) :=
  run_skips_processed_items demoRunEnv trivialJitEnv demoState [demoItem]
    (by
      intro item hmem
      rw [List.mem_singleton] at hmem
      subst hmem
      exact ⟨"N1", rfl, by decide⟩)

/-! ## The resilient request primitive
(`BSEScraper._make_resilient_request`, scraper.py lines 82-112)

The per-attempt outcome of `session.request` + `raise_for_status` is an
oracle `Nat → Option ρ`: `some response` when attempt `k` succeeds, `none`
when it raises a `requests.RequestException` (the classified-transient
failures the handler catches).  Backoff factors are exact rationals, the
arithmetic the source performs on them being a product with a power of
two.  The model returns the result (`none` = all retries exhausted, the
typed giving-up value), the list of sleeps performed, and the number of
attempts executed. -/

/-- The `for attempt in range(retries)` loop, with `fuel` attempts left and
`attempt` the current index: return on success; on failure break without
sleeping when this was the last attempt, else sleep
`backoff_factor * 2 ** attempt` and continue. -/
def resilientGo (oracle : Nat → Option ρ) (backoff_factor : ℚ) :
    Nat → Nat → Option ρ × List ℚ × Nat
  | 0, _ => (none, [], 0)
  | fuel + 1, attempt =>
    match oracle attempt with
    | some r => (some r, [], 1)
    | none =>
      if fuel = 0 then (none, [], 1)
      else
        let rest := resilientGo oracle backoff_factor fuel (attempt + 1)
        (rest.1, backoff_factor * 2 ^ attempt :: rest.2.1, rest.2.2 + 1)

/-- `BSEScraper._make_resilient_request` (scraper.py lines 82-112). -/
def make_resilient_request (oracle : Nat → Option ρ) (retries : Nat)
    (backoff_factor : ℚ) : Option ρ × List ℚ × Nat :=
  resilientGo oracle backoff_factor retries 0

lemma resilientGo_attempts_le (oracle : Nat → Option ρ) (backoff_factor : ℚ) :
    ∀ (fuel attempt : Nat),
      (resilientGo oracle backoff_factor fuel attempt).2.2 ≤ fuel := by
  intro fuel
  induction fuel with
  | zero => intro attempt; exact Nat.le_refl 0
  | succ f ih =>
    intro attempt
    unfold resilientGo
    cases oracle attempt with
    | some r => exact Nat.le_add_left 1 f
    | none =>
      by_cases hf : f = 0
      · rw [if_pos hf]; simp [hf]
      · rw [if_neg hf]
        exact Nat.succ_le_succ (ih (attempt + 1))

lemma resilientGo_success (oracle : Nat → Option ρ) (backoff_factor : ℚ) :
    ∀ (k fuel attempt : Nat) (r : ρ), k < fuel →
      oracle (attempt + k) = some r →
      (∀ j < k, oracle (attempt + j) = none) →
      resilientGo oracle backoff_factor fuel attempt
        = (some r, (List.range' attempt k).map (fun i => backoff_factor * 2 ^ i),
           k + 1) := by
  intro k
  induction k with
  | zero =>
    intro fuel attempt r hk hsucc _
    obtain ⟨f, rfl⟩ : ∃ f, fuel = f + 1 := ⟨fuel - 1, (Nat.succ_pred_eq_of_pos hk).symm⟩
    unfold resilientGo
    rw [show attempt + 0 = attempt from rfl] at hsucc
    rw [hsucc]
    rfl
  | succ k ih =>
    intro fuel attempt r hk hsucc hfail
    obtain ⟨f, rfl⟩ : ∃ f, fuel = f + 1 :=
      ⟨fuel - 1, (Nat.succ_pred_eq_of_pos (Nat.lt_of_le_of_lt (Nat.zero_le _) hk)).symm⟩
    have hfirst : oracle attempt = none := by
      have := hfail 0 (Nat.succ_pos k)
      rwa [Nat.add_zero] at this
    have hf : f ≠ 0 := by
      intro h0
      rw [h0] at hk
      exact absurd (Nat.lt_of_succ_lt_succ hk) (Nat.not_lt_zero k)
    unfold resilientGo
    rw [hfirst]
    simp only [if_neg hf]
    rw [ih f (attempt + 1) r (Nat.lt_of_succ_lt_succ hk)
      (by rw [show attempt + 1 + k = attempt + (k + 1) by omega]; exact hsucc)
      (fun j hj => by
        rw [show attempt + 1 + j = attempt + (j + 1) by omega]
        exact hfail (j + 1) (Nat.succ_lt_succ hj))]
    rw [List.range'_succ]
    rfl

lemma resilientGo_exhausted (oracle : Nat → Option ρ) (backoff_factor : ℚ) :
    ∀ (fuel attempt : Nat),
      (∀ j < fuel, oracle (attempt + j) = none) →
      resilientGo oracle backoff_factor fuel attempt
        = (none, (List.range' attempt (fuel - 1)).map (fun i => backoff_factor * 2 ^ i),
           fuel) := by
  intro fuel
  induction fuel with
  | zero => intro attempt _; rfl
  | succ f ih =>
    intro attempt hfail
    have hfirst : oracle attempt = none := by
      have := hfail 0 (Nat.succ_pos f)
      rwa [Nat.add_zero] at this
    unfold resilientGo
    rw [hfirst]
    by_cases hf : f = 0
    · rw [if_pos hf, hf]
      rfl
    · rw [if_neg hf]
      rw [ih (attempt + 1) (fun j hj => by
        rw [show attempt + 1 + j = attempt + (j + 1) by omega]
        exact hfail (j + 1) (Nat.succ_lt_succ hj))]
      obtain ⟨f', rfl⟩ : ∃ f', f = f' + 1 := ⟨f - 1, (Nat.succ_pred_eq_of_pos (Nat.pos_of_ne_zero hf)).symm⟩
      simp only [Nat.add_sub_cancel]
      rw [List.range'_succ]
      rfl

/-- Claim C6: the resilient request executes the wrapped request at most
`retries` times; it sleeps `backoff_factor * 2 ^ attempt` between
consecutive failed attempts (so the sleep list on the way to a success at
attempt `k` is exactly attempts `0..k-1`'s backoffs, and on exhaustion
`retries - 1` sleeps happen); it returns the response of the first
successful attempt immediately; and once every attempt has failed it
returns the typed failure value `none` to the caller instead of letting
the failure escape. -/
theorem make_resilient_request_spec (oracle : Nat → Option ρ) (retries : Nat)
    (backoff_factor : ℚ) :
    (make_resilient_request oracle retries backoff_factor).2.2 ≤ retries ∧
    (∀ k r, k < retries → oracle k = some r → (∀ j < k, oracle j = none) →
       make_resilient_request oracle retries backoff_factor
         = (some r, (List.range k).map (fun i => backoff_factor * 2 ^ i), k + 1)) ∧
    ((∀ j < retries, oracle j = none) →
       make_resilient_request oracle retries backoff_factor
         = (none, (List.range (retries - 1)).map (fun i => backoff_factor * 2 ^ i),
            retries)) := by
  refine ⟨resilientGo_attempts_le oracle backoff_factor retries 0, ?_, ?_⟩
  · intro k r hk hsucc hfail
    unfold make_resilient_request
    rw [resilientGo_success oracle backoff_factor k retries 0 r hk
      (by rwa [Nat.zero_add]) (fun j hj => by rw [Nat.zero_add]; exact hfail j hj)]
    rw [List.range_eq_range']
  · intro hfail
    unfold make_resilient_request
    rw [resilientGo_exhausted oracle backoff_factor retries 0
      (fun j hj => by rw [Nat.zero_add]; exact hfail j hj)]
    rw [List.range_eq_range']

/-- Per-attempt oracle for the claim C6 witness: attempts 0 and 1 raise,
attempt 2 succeeds with response 200. -/
def demoOracle : Nat → Option Nat :=
  fun k => if k = 2 then some 200 else none

/-- Witness for claim C6: with 5 retries and backoff factor 2, the wrapped
call succeeding on its third attempt yields that response after sleeping
2·2⁰ and 2·2¹ seconds, and a permanently failing call exhausts all 5
attempts, sleeps 4 times and returns `none`. -/
theorem make_resilient_request_spec_witness :
    make_resilient_request demoOracle 5 2 = (some 200, [2, 4], 3) ∧
    make_resilient_request (fun _ => (none : Option Nat)) 5 2
      = (none, [2, 4, 8, 16], 5) := by
  constructor
  · have h := (make_resilient_request_spec demoOracle 5 2).2.1 2 200 (by decide)
      (by decide) (by decide)
    rw [h]
    norm_num [List.range_succ]
  · have h := (make_resilient_request_spec (fun _ => (none : Option Nat)) 5 2).2.2
      (fun j _ => rfl)
    rw [h]
    norm_num [List.range_succ]

/-! ## The notification sequencer
(`BSEScraper.run_all_notifications_sequentially`, scraper.py lines 433-448)

Each queued delivery action is modelled by its behaviour: `none` when the
awaited call returns normally, `some e` when it raises `e`.  Running the
sequencer yields the ordered trace of events (action starts and sleeps)
plus the escaping exception, if any. -/

/-- Events observable while the sequencer runs: starting the `idx`-th
delivery action, or sleeping a fixed number of seconds. -/
inductive NotifEvent where
  | run (idx : Nat)
  | sleep (secs : Nat)
deriving DecidableEq, Repr

/-- The `for idx, task_factory in enumerate(tasks, 1)` loop: await the
action bare — a raised exception escapes at once, executing nothing
further — then sleep 2 seconds unless this was the last action. -/
def notifGo (behaviours : List (Option ε)) (idx : Nat) :
    List NotifEvent × Option ε :=
  match behaviours with
  | [] => ([], none)
  | t :: rest =>
    match t with
    | some e => ([NotifEvent.run idx], some e)
    | none =>
      match rest with
      | [] => ([NotifEvent.run idx], none)
      | _ :: _ =>
        let r := notifGo rest (idx + 1)
        (NotifEvent.run idx :: NotifEvent.sleep 2 :: r.1, r.2)

/-- `BSEScraper.run_all_notifications_sequentially` (scraper.py lines
433-448); indices are 0-based here where the source logs 1-based. -/
def run_all_notifications_sequentially (behaviours : List (Option ε)) :
    List NotifEvent × Option ε :=
  notifGo behaviours 0

/-- The delivery schedule in the spec's words: the actions strictly in list
order, one fixed 2-second delay between each consecutive pair, none after
the last. -/
def specNotificationTrace (start n : Nat) : List NotifEvent :=
  List.intersperse (NotifEvent.sleep 2) ((List.range' start n).map NotifEvent.run)

lemma notifGo_all_ok (n : Nat) : ∀ idx : Nat,
    notifGo (List.replicate n (none : Option ε)) idx
      = (specNotificationTrace idx n, none) := by
  induction n with
  | zero => intro idx; rfl
  | succ m ih =>
    intro idx
    cases m with
    | zero => rfl
    | succ m' =>
      show (NotifEvent.run idx :: NotifEvent.sleep 2 ::
        (notifGo (List.replicate (m' + 1) none) (idx + 1)).1,
        (notifGo (List.replicate (m' + 1) none) (idx + 1)).2)
        = (specNotificationTrace idx (m' + 2), none)
      rw [ih (idx + 1)]
      unfold specNotificationTrace
      rw [List.range'_succ, List.range'_succ]
      rfl

lemma countP_sleep_intersperse : ∀ l : List Nat,
    ((List.intersperse (NotifEvent.sleep 2) (l.map NotifEvent.run)).countP
      (fun ev => match ev with | NotifEvent.sleep _ => true | _ => false))
      = l.length - 1 := by
  intro l
  induction l with
  | nil => rfl
  | cons a t ih =>
    cases t with
    | nil => rfl
    | cons b t' =>
      show ((NotifEvent.run a :: NotifEvent.sleep 2 ::
        List.intersperse (NotifEvent.sleep 2) ((b :: t').map NotifEvent.run)).countP _)
        = (a :: b :: t').length - 1
      rw [List.countP_cons, List.countP_cons, ih]
      simp [List.length_cons]

/-- Claim C8: over a batch of `n` delivery actions that all complete, the
sequencer runs them strictly in list order, one at a time, with exactly one
fixed 2-second delay between each consecutive pair and no trailing delay —
`n − 1` delays in total, none for a single-element (or empty) batch. -/
theorem notifications_in_order_with_delays (n : Nat) :
    run_all_notifications_sequentially (List.replicate n (none : Option Unit))
      = (specNotificationTrace 0 n, none) ∧
    ((run_all_notifications_sequentially (List.replicate n (none : Option Unit))).1.countP
      (fun ev => match ev with | NotifEvent.sleep _ => true | _ => false)) = n - 1 := by
  have h := notifGo_all_ok (ε := Unit) n 0
  refine ⟨h, ?_⟩
  show ((run_all_notifications_sequentially (List.replicate n (none : Option Unit))).1.countP _) = n - 1
  rw [show (run_all_notifications_sequentially (List.replicate n (none : Option Unit))).1
    = specNotificationTrace 0 n by rw [run_all_notifications_sequentially, h]]
  unfold specNotificationTrace
  have := countP_sleep_intersperse (List.range' 0 n)
  rwa [List.length_range'] at this

lemma notifGo_raise (k : Nat) (e : ε) (rest : List (Option ε)) : ∀ idx : Nat,
    notifGo (List.replicate k none ++ some e :: rest) idx
      = (((List.range' idx k).map
          (fun i => [NotifEvent.run i, NotifEvent.sleep 2])).flatten
          ++ [NotifEvent.run (idx + k)], some e) := by
  induction k with
  | zero =>
    intro idx
    simp only [List.replicate, List.nil_append, List.range'_zero, List.map_nil,
      List.flatten_nil, List.nil_append, Nat.add_zero]
    rfl
  | succ m ih =>
    intro idx
    show notifGo (none :: (List.replicate m none ++ some e :: rest)) (idx) = _
    have hne : List.replicate m (none : Option ε) ++ some e :: rest ≠ [] := by
      cases m with
      | zero => simp
      | succ m' => simp [List.replicate]
    obtain ⟨x, xs, hx⟩ : ∃ x xs, List.replicate m (none : Option ε) ++ some e :: rest = x :: xs := by
      cases h : List.replicate m (none : Option ε) ++ some e :: rest with
      | nil => exact absurd h hne
      | cons x xs => exact ⟨x, xs, rfl⟩
    show (match List.replicate m (none : Option ε) ++ some e :: rest with
      | [] => ([NotifEvent.run idx], (none : Option ε))
      | _ :: _ =>
        let r := notifGo (List.replicate m none ++ some e :: rest) (idx + 1)
        (NotifEvent.run idx :: NotifEvent.sleep 2 :: r.1, r.2)) = _
    rw [hx, ← hx, ih (idx + 1)]
    rw [List.range'_succ, List.map_cons, List.flatten_cons]
    simp only [List.cons_append, List.nil_append]
    rw [show idx + 1 + m = idx + (m + 1) by omega]
    rw [hx]

/-- Claim C9: the sequencer installs no per-action error handling — when the
action at position `k` (0-based) raises, the first `k` actions have run
with their inter-delivery delays, the failing action has started, the
exception escapes the sequencer, and none of the remaining actions are
executed. -/
theorem notification_exception_propagates (k : Nat) (e : ε)
    (rest : List (Option ε)) :
    run_all_notifications_sequentially (List.replicate k none ++ some e :: rest)
      = (((List.range k).map
          (fun i => [NotifEvent.run i, NotifEvent.sleep 2])).flatten
          ++ [NotifEvent.run k], some e) := by
  unfold run_all_notifications_sequentially
  rw [notifGo_raise k e rest 0, List.range_eq_range']
  rw [Nat.zero_add]

/-! ## The backfill worker pool's shared throttle
(`historical_backfill.py` lines 52-106)

`throttle_event` is a shared `asyncio.Event`.  Before each fetch attempt a
worker runs (lines 60-65):

    if throttle_event.is_set():
        await asyncio.sleep(THROTTLE_SECONDS)
        throttle_event.clear()

Under asyncio's cooperative scheduling the `is_set` check, the suspension
inside `sleep`, and the `clear` are separate atomic steps: while one worker
is suspended inside its cool-down sleep the flag is still set, and any
other worker reaching the check during that window also observes it set.
Each worker is a program counter — `check` (about to test the flag),
`sleeping` (suspended inside the cool-down sleep), `request` (past the
throttle, proceeding to the HTTP attempt) — plus a count of cool-down
sleeps it has begun. -/

inductive WorkerPc where
  | check
  | sleeping
  | request
deriving DecidableEq, Repr

/-- Shared flag plus per-worker program counters and sleep counts. -/
structure ThrottleState where
  flag : Bool
  pcs : List WorkerPc
  sleeps : List Nat
deriving DecidableEq, Repr

/-- One atomic scheduler step of worker `w`: at `check`, a set flag sends
the worker into the cool-down sleep (counted) and a clear flag lets it
proceed; a worker waking from `sleeping` clears the flag and proceeds. -/
def throttleStep (s : ThrottleState) (w : Nat) : ThrottleState :=
  match s.pcs.getD w WorkerPc.request with
  | WorkerPc.check =>
    if s.flag then
      { s with pcs := s.pcs.set w WorkerPc.sleeping,
               sleeps := s.sleeps.set w (s.sleeps.getD w 0 + 1) }
    else { s with pcs := s.pcs.set w WorkerPc.request }
  | WorkerPc.sleeping =>
    { s with flag := false, pcs := s.pcs.set w WorkerPc.request }
  | WorkerPc.request => s

/-- Run a cooperative schedule (a sequence of worker ids to step). -/
def runThrottleSchedule (s : ThrottleState) (schedule : List Nat) : ThrottleState :=
  schedule.foldl throttleStep s

/-- Total cool-down sleeps begun across the pool. -/
def totalSleeps (s : ThrottleState) : Nat := s.sleeps.sum

/-- Two workers at their throttle checks just after a single distress
signal has set the flag. -/
def distressState : ThrottleState where
  flag := true
  pcs := [WorkerPc.check, WorkerPc.check]
  sleeps := [0, 0]

/-- Claim C5, counterexample: after one distress signal, the interleaving
in which worker 0 observes the set flag and enters its cool-down sleep,
then worker 1 reaches its own check while worker 0 is still suspended —
the flag not yet cleared — makes both workers pay the full cool-down for
the single distress event, since `clear` only happens after the sleep.
Both end up past the throttle with the flag cleared, having slept twice
in total. -/
theorem throttle_double_cooldown :
    totalSleeps (runThrottleSchedule distressState [0, 1, 0, 1]) = 2 ∧
    (runThrottleSchedule distressState [0, 1, 0, 1]).flag = false ∧
    (runThrottleSchedule distressState [0, 1, 0, 1]).pcs
      = [WorkerPc.request, WorkerPc.request] := by
  refine ⟨?_, ?_, ?_⟩ <;> rfl

/-- Claim C5 (amended): a worker that observes the throttle flag set begins
the fixed cool-down sleep and clears the flag only on waking, and a worker
that observes the flag cleared proceeds without sleeping; but because the
flag stays set for the whole cool-down sleep, every worker whose check
lands in that window also sleeps — one distress event can cost several
workers the cool-down, as the schedule above shows. -/
theorem throttle_check_semantics (s : ThrottleState) (w : Nat)
    (hpc : s.pcs.getD w WorkerPc.request = WorkerPc.check) :
    (s.flag = false →
       throttleStep s w = { s with pcs := s.pcs.set w WorkerPc.request }) ∧
    (s.flag = true →
       throttleStep s w
         = { s with pcs := s.pcs.set w WorkerPc.sleeping,
                    sleeps := s.sleeps.set w (s.sleeps.getD w 0 + 1) } ∧
       (throttleStep s w).flag = true) ∧
    (∀ (s' : ThrottleState) (w' : Nat),
       s'.pcs.getD w' WorkerPc.request = WorkerPc.sleeping →
       (throttleStep s' w').flag = false ∧
       (throttleStep s' w').pcs = s'.pcs.set w' WorkerPc.request) := by
  refine ⟨?_, ?_, ?_⟩
  · intro hflag
    unfold throttleStep
    rw [hpc, hflag]
    rfl
  · intro hflag
    constructor
    · unfold throttleStep
      rw [hpc, hflag]
      rfl
    · unfold throttleStep
      rw [hpc, hflag]
      rfl
  · intro s' w' hpc'
    unfold throttleStep
    rw [hpc']
    exact ⟨rfl, rfl⟩

/-- Witness for claim C5 (amended), at the concrete two-worker state: with
the flag set, worker 0's check sends it into the counted sleep without
clearing the flag; and a worker waking from its sleep clears the flag. -/
theorem throttle_check_semantics_witness :
    throttleStep distressState 0
      = { distressState with
          pcs := distressState.pcs.set 0 WorkerPc.sleeping,
          sleeps := distressState.sleeps.set 0
            (distressState.sleeps.getD 0 0 + 1) } ∧
    (throttleStep distressState 0).flag = true :=
  (throttle_check_semantics distressState 0 (by decide)).2.1 rfl
